import Mathlib

set_option maxRecDepth 100000

/-!
Verification development for the cc-monitor server: a shallow embedding of
the record parser, file tailer, authentication service, connection manager
and WebSocket subscription logic, together with theorems settling the
frozen specification claims against this embedding.

Conventions of the embedding:
  - JavaScript runtime values produced by JSON.parse are modelled by the
    inductive type JsVal; numbers are modelled as integers, which is
    faithful for every input considered here (JSON has no NaN, and the
    truth of zero versus nonzero integers mirrors JS truthiness).
  - JS Maps are modelled as association lists with unique keys, operated
    on through aget, aset and adel.
  - Wall-clock time (the result of new Date) is passed explicitly as a
    natural number of milliseconds.
  - File contents are lists of characters; byte offsets are list indices,
    which is faithful for the ASCII inputs considered here.
-/

/-- A JavaScript value as produced by JSON.parse: null, booleans,
numbers (modelled as integers), strings, arrays and objects. -/
inductive JsVal where
  | jnull : JsVal
  | jbool : Bool → JsVal
  | jnum : Int → JsVal
  | jstr : String → JsVal
  | jarr : List JsVal → JsVal
  | jobj : List (String × JsVal) → JsVal
deriving Repr

/-- JS truthiness of a value: null, false, 0 and the empty string are
falsy; every array and object is truthy. -/
def JsVal.truthy : JsVal → Bool
  | jnull => false
  | jbool b => b
  | jnum n => n != 0
  | jstr s => s ≠ ""
  | jarr _ => true
  | jobj _ => true

/-- Property access on a JS value. Returns none for undefined: a missing
key on an object, or any access on a non-object (access on null throws a
TypeError in JS, but every such access in the embedded code sits inside a
try/catch whose handler returns null, so mapping it to undefined gives
the same observable result). -/
def JsVal.access : JsVal → String → Option JsVal
  | jobj fields, k => aux fields k
  | _, _ => none
where
  aux : List (String × JsVal) → String → Option JsVal
    | [], _ => none
    | (k', v) :: rest, k => if k' = k then some v else aux rest k

/-- Truthiness of a possibly-undefined value; undefined is falsy. -/
def JsVal.truthyOpt : Option JsVal → Bool
  | none => false
  | some v => v.truthy

/-- The JS expression v-or-default: the value if truthy, else the default.
Models expressions of the form parsed.field or-else some-default. -/
def JsVal.orDefault (o : Option JsVal) (d : JsVal) : JsVal :=
  match o with
  | none => d
  | some v => if v.truthy then v else d

/-- Strict equality test of a JS value against a string literal, as in
the JS comparison value triple-equals some-string. -/
def JsVal.eqStr : JsVal → String → Bool
  | jstr s, t => s = t
  | _, _ => false

/- JSON text parsing, modelling JSON.parse restricted to the features the
watched log lines use: objects, arrays, strings with backslash escapes,
integer numbers, booleans and null. Fuel-based recursion; the fuel is
always taken at least the input length plus one, which every nesting
level fits under. -/

/-- Skip JSON whitespace. -/
def skipWs (s : List Char) : List Char :=
  s.dropWhile (fun c => c = ' ' || c = '\n' || c = '\t' || c = '\r')

/-- Parse the body of a JSON string after the opening quote, handling
backslash escapes for quote, backslash, slash, n, t and r. -/
def parseStringBody : List Char → List Char → Option (String × List Char)
  | [], _ => none
  | '"' :: rest, acc => some (String.mk acc.reverse, rest)
  | '\\' :: c :: rest, acc =>
      let e : Char :=
        if c = 'n' then '\n' else if c = 't' then '\t'
        else if c = 'r' then '\r' else c
      parseStringBody rest (e :: acc)
  | ['\\'], _ => none
  | c :: rest, acc => parseStringBody rest (c :: acc)

/-- Parse an integer JSON number (optional minus sign then digits). -/
def parseNumber (s : List Char) : Option (JsVal × List Char) :=
  let (neg, s1) := match s with
    | '-' :: r => (true, r)
    | _ => (false, s)
  let ds := s1.takeWhile Char.isDigit
  if ds.isEmpty then none
  else
    let n : Nat := ds.foldl (fun a c => a * 10 + (c.toNat - 48)) 0
    some (JsVal.jnum (if neg then -(n : Int) else (n : Int)), s1.drop ds.length)

mutual

/-- Parse one JSON value from the front of the input. -/
def parseVal : Nat → List Char → Option (JsVal × List Char)
  | 0, _ => none
  | fuel + 1, input =>
    match skipWs input with
    | '"' :: rest => (parseStringBody rest []).map (fun p => (JsVal.jstr p.1, p.2))
    | 't' :: 'r' :: 'u' :: 'e' :: rest => some (JsVal.jbool true, rest)
    | 'f' :: 'a' :: 'l' :: 's' :: 'e' :: rest => some (JsVal.jbool false, rest)
    | 'n' :: 'u' :: 'l' :: 'l' :: rest => some (JsVal.jnull, rest)
    | '[' :: rest => (parseArrayItems fuel rest).map (fun p => (JsVal.jarr p.1, p.2))
    | '\x7b' :: rest => (parseObjFields fuel rest).map (fun p => (JsVal.jobj p.1, p.2))
    | s => parseNumber s

/-- Parse the items of a JSON array after the opening bracket. -/
def parseArrayItems : Nat → List Char → Option (List JsVal × List Char)
  | 0, _ => none
  | fuel + 1, input =>
    match skipWs input with
    | ']' :: rest => some ([], rest)
    | s =>
      match parseVal fuel s with
      | none => none
      | some (v, rest) =>
        match skipWs rest with
        | ',' :: rest2 =>
          (parseArrayItems fuel rest2).map (fun p => (v :: p.1, p.2))
        | ']' :: rest2 => some ([v], rest2)
        | _ => none

/-- Parse the fields of a JSON object after the opening brace. -/
def parseObjFields : Nat → List Char → Option (List (String × JsVal) × List Char)
  | 0, _ => none
  | fuel + 1, input =>
    match skipWs input with
    | '\x7d' :: rest => some ([], rest)
    | '"' :: rest =>
      match parseStringBody rest [] with
      | none => none
      | some (k, rest1) =>
        match skipWs rest1 with
        | ':' :: rest2 =>
          match parseVal fuel rest2 with
          | none => none
          | some (v, rest3) =>
            match skipWs rest3 with
            | ',' :: rest4 =>
              (parseObjFields fuel rest4).map (fun p => ((k, v) :: p.1, p.2))
            | '\x7d' :: rest4 => some ([(k, v)], rest4)
            | _ => none
        | _ => none
    | _ => none

end

/-- JSON.parse on a whole string: one value, then only whitespace. -/
def jsonParse (s : String) : Option JsVal :=
  match parseVal (s.length + 1) s.data with
  | some (v, rest) => if (skipWs rest).isEmpty then some v else none
  | none => none

/- Model of the parsed record type ClaudeCodeMessage from part_004. The
TypeScript declaration gives the fields literal types, but the runtime
object built by FileStreamMonitor.parseJSONLLine simply copies whatever
JSON values were present (TypeScript types are erased), so the embedding
gives every field the runtime type JsVal. -/

/-- A parsed Claude Code record as built by parseJSONLLine: the field
values are whatever JSON values the line carried. -/
structure ClaudeCodeMessage where
  parentUuid : JsVal
  sessionId : JsVal
  type : JsVal
  message : JsVal
  timestamp : JsVal
  cwd : JsVal
deriving Repr

/-- Validation and construction step of FileStreamMonitor.parseJSONLLine
(part_007, lines 199 to 211), applied to the value JSON.parse returned:
if sessionId, type, message or timestamp is falsy the function returns
null, otherwise it builds the record, defaulting parentUuid and cwd to
the empty string. No check is made on the contents of type, message or
timestamp beyond truthiness. -/
def validateMessage (parsed : JsVal) : Option ClaudeCodeMessage :=
  if !(JsVal.truthyOpt (parsed.access "sessionId"))
      || !(JsVal.truthyOpt (parsed.access "type"))
      || !(JsVal.truthyOpt (parsed.access "message"))
      || !(JsVal.truthyOpt (parsed.access "timestamp")) then
    none
  else
    some
      { parentUuid := JsVal.orDefault (parsed.access "parentUuid") (JsVal.jstr "")
        sessionId := (parsed.access "sessionId").getD JsVal.jnull
        type := (parsed.access "type").getD JsVal.jnull
        message := (parsed.access "message").getD JsVal.jnull
        timestamp := (parsed.access "timestamp").getD JsVal.jnull
        cwd := JsVal.orDefault (parsed.access "cwd") (JsVal.jstr "") }

/-- FileStreamMonitor.parseJSONLLine (part_007, lines 195 to 215):
JSON.parse the line, then validate; any exception, in particular a JSON
syntax error, is caught and turned into null. The function never throws
and never produces any error object. -/
def parseJSONLLine (line : String) : Option ClaudeCodeMessage :=
  match jsonParse line with
  | none => none
  | some parsed => validateMessage parsed

/- Model of the per-file tailing logic of FileStreamMonitor (part_007).
The readline interface used by readNewContent yields every maximal
newline-free segment of the stream, including a nonempty trailing
segment that is not newline-terminated: end of stream terminates the
final line. rlSplit reproduces that behaviour. -/

/-- Accumulator version of the readline splitter. -/
def rlSplitAux : List Char → List Char → List (List Char)
  | [], acc => if acc.isEmpty then [] else [acc.reverse]
  | c :: cs, acc =>
      if c = '\n' then acc.reverse :: rlSplitAux cs []
      else rlSplitAux cs (c :: acc)

/-- The line sequence the readline interface yields for a stream: the
segments between newlines, plus the trailing partial segment when the
stream does not end in a newline. -/
def rlSplit (s : List Char) : List (List Char) :=
  rlSplitAux s []

/-- Events the monitor emits while reading file content. -/
inductive TailEvent where
  | newMessage : ClaudeCodeMessage → TailEvent
  | existingMessage : ClaudeCodeMessage → TailEvent
deriving Repr

/-- Whitespace as the JS String.trim of the monitor sees it. -/
def isJsWhitespace (c : Char) : Bool :=
  c = ' ' || c = '\t' || c = '\n' || c = '\r'

/-- The loop body of FileStreamMonitor.readNewContent (part_007, lines
181 to 192) for one line: skip lines whose trim is falsy, that is lines
made only of whitespace; emit a newMessage event when the line parses,
and nothing otherwise. The catch branch that would emit a parseError
event is unreachable, because parseJSONLLine catches every exception
internally and returns null, so the embedding has no parseError
event. -/
def processLine (line : List Char) : List TailEvent :=
  if line.all isJsWhitespace then []
  else
    match parseJSONLLine (String.mk line) with
    | some m => [TailEvent.newMessage m]
    | none => []

/-- FileStreamMonitor.readNewContent (part_007, lines 170 to 193): stream
the file from the given byte position, split into lines with readline,
and process each line. Returns the events emitted; it does not touch
filePositions. -/
def readNewContent (content : List Char) (startPosition : Nat) : List TailEvent :=
  ((rlSplit (content.drop startPosition)).map processLine).flatten

/- Association list operations modelling JS Map. Keys are unique in every
map the model builds; adel removes every binding of the key so that the
lemmas hold without a separate uniqueness invariant. -/

/-- Lookup in an association list (JS Map.get). -/
def aget {α : Type} : List (String × α) → String → Option α
  | [], _ => none
  | (k', v) :: rest, k => if k' = k then some v else aget rest k

/-- Insert or replace in an association list (JS Map.set). -/
def aset {α : Type} : List (String × α) → String → α → List (String × α)
  | [], k, v => [(k, v)]
  | (k', v') :: rest, k, v =>
      if k' = k then (k, v) :: rest else (k', v') :: aset rest k v

/-- Remove from an association list (JS Map.delete). -/
def adel {α : Type} : List (String × α) → String → List (String × α)
  | [], _ => []
  | (k', v') :: rest, k =>
      if k' = k then adel rest k else (k', v') :: adel rest k

/-- Mutable state of FileStreamMonitor: the byte position per file and
the last-activity clock per file. -/
structure MonitorState where
  filePositions : List (String × Nat)
  lastActivity : List (String × Nat)
deriving Repr

/-- The empty monitor state. -/
def MonitorState.empty : MonitorState := ⟨[], []⟩

/-- FileStreamMonitor.handleFileChanged (part_007, lines 108 to 131) for
one change notification, given the file content observed by stat and
read. Updates lastActivity, then: size below the stored position means
truncation, so the position is reset to 0 and the whole file re-read;
note the truncation branch returns without advancing the position past
what it just read. Size above the position reads the new suffix and
advances the position to the new size. Equal size is a no-op. -/
def handleFileChanged (st : MonitorState) (filePath : String)
    (content : List Char) (now : Nat) : MonitorState × List TailEvent :=
  let currentPosition := (aget st.filePositions filePath).getD 0
  let size := content.length
  let st1 : MonitorState :=
    { st with lastActivity := aset st.lastActivity filePath now }
  if size < currentPosition then
    ({ st1 with filePositions := aset st1.filePositions filePath 0 },
     readNewContent content 0)
  else if size > currentPosition then
    ({ st1 with filePositions := aset st1.filePositions filePath size },
     readNewContent content currentPosition)
  else
    (st1, [])

/-- Run a sequence of change notifications for one file, collecting all
emitted events in order. Each list entry is the file content observed at
that notification paired with the wall clock. -/
def runChanges (st : MonitorState) (filePath : String) :
    List (List Char × Nat) → List TailEvent
  | [] => []
  | (content, now) :: rest =>
      let step := handleFileChanged st filePath content now
      step.2 ++ runChanges step.1 filePath rest

/-- The inactivity threshold of startInactivityMonitoring (part_007,
line 230): ten minutes in milliseconds. -/
def inactivityThreshold : Nat := 10 * 60 * 1000

/-- One tick of FileStreamMonitor.startInactivityMonitoring (part_007,
lines 227 to 250): every tracked file whose last activity lies more than
the threshold in the past fires a sessionInactive event, with the file
paired with its recorded last activity, and is removed from tracking.
JS date subtraction can go negative when the clock moved back; natural
subtraction truncates that case to zero, which is below the threshold on
both sides. -/
def inactivityTick (st : MonitorState) (now : Nat) : MonitorState × List (String × Nat) :=
  let fired := st.lastActivity.filter (fun p => decide (inactivityThreshold < now - p.2))
  ({ st with
      lastActivity := st.lastActivity.filter (fun p => !decide (inactivityThreshold < now - p.2)) },
   fired)

/- Model of AuthenticationService (part_006). Random token and key
generation (crypto.randomUUID, crypto.randomBytes) is modelled by
passing the fresh value as an argument. -/

/-- A guest token record (part_006, interface GuestToken); the token
string itself is the map key. -/
structure GuestToken where
  expires : Nat
  deviceId : Option String
  used : Bool
  createdAt : Nat
deriving Repr, DecidableEq

/-- A device credential record (part_006, interface ApiKey); the key
string itself is the map key. -/
structure ApiKey where
  deviceId : String
  createdAt : Nat
  expiresAt : Nat
  lastUsed : Option Nat
  revoked : Bool
deriving Repr, DecidableEq

/-- The tables and options of AuthenticationService. -/
structure AuthState where
  guestTokens : List (String × GuestToken)
  apiKeys : List (String × ApiKey)
  qrTokenTTL : Nat
  apiKeyTTL : Nat
deriving Repr, DecidableEq

/-- The error taxonomy of authenticateMobile, matching the three throw
sites of part_006 lines 117, 123 and 130. -/
inductive AuthError where
  | invalidToken : AuthError
  | tokenUsed : AuthError
  | tokenExpired : AuthError
deriving Repr, DecidableEq

/-- The message text each authenticateMobile throw site attaches
(part_006, lines 117, 123, 130). -/
def mobileErrorMessage : AuthError → String
  | .invalidToken => "Invalid guest token"
  | .tokenUsed => "Guest token already used"
  | .tokenExpired => "Guest token expired"

/-- JS String.includes as a substring test. -/
def includesStr (s pat : String) : Bool :=
  decide (pat.data <:+: s.data)

/-- The HTTP status the /api/auth/mobile handler derives from the thrown
message (createAuthRoutes in ConnectionManager.ts staging, lines 466 to
468): a message containing Invalid gives 401, else containing expired
gives 410, else containing used gives 409, else 500. -/
def httpStatusMobile (e : AuthError) : Nat :=
  let msg := mobileErrorMessage e
  if includesStr msg "Invalid" then 401
  else if includesStr msg "expired" then 410
  else if includesStr msg "used" then 409
  else 500

/-- The token storage step of generateAuthQR (part_006, lines 54 to 103
with generateGuestToken at 300 to 311): a fresh token with expiry now
plus the QR token TTL is stored unused. -/
def issueGuestToken (st : AuthState) (now : Nat) (token : String) : AuthState :=
  { st with
      guestTokens := aset st.guestTokens token
        { expires := now + st.qrTokenTTL, deviceId := none,
          used := false, createdAt := now } }

/-- AuthenticationService.authenticateMobile (part_006, lines 108 to
165). Unknown token throws invalid; a used token throws used; an expired
token is deleted and throws expired; otherwise the token is marked used,
a fresh credential keyed by freshKey is minted with expiry now plus the
API key TTL, and the guest token is deleted from the table. -/
def authenticateMobile (st : AuthState) (now : Nat)
    (guestToken deviceId freshKey : String) : AuthState × Except AuthError String :=
  match aget st.guestTokens guestToken with
  | none => (st, .error .invalidToken)
  | some token =>
    if token.used then (st, .error .tokenUsed)
    else if now > token.expires then
      ({ st with guestTokens := adel st.guestTokens guestToken }, .error .tokenExpired)
    else
      let tokens1 := aset st.guestTokens guestToken
        { token with used := true, deviceId := some deviceId }
      let keys1 := aset st.apiKeys freshKey
        { deviceId := deviceId, createdAt := now, expiresAt := now + st.apiKeyTTL,
          lastUsed := none, revoked := false }
      ({ st with guestTokens := adel tokens1 guestToken, apiKeys := keys1 },
       .ok freshKey)

/-- AuthenticationService.revokeApiKey (part_006, lines 228 to 244):
returns false when the key is unknown, otherwise sets revoked. -/
def revokeApiKey (st : AuthState) (apiKey : String) : Bool × AuthState :=
  match aget st.apiKeys apiKey with
  | none => (false, st)
  | some key =>
      (true, { st with apiKeys := aset st.apiKeys apiKey { key with revoked := true } })

/-- AuthenticationService.validateApiKey (part_006, lines 170 to 197):
unknown and revoked keys fail without state change; an expired key fails
and is revoked through the internal revokeApiKey call of line 188; a
valid key has its lastUsed stamp updated and succeeds. -/
def validateApiKey (st : AuthState) (now : Nat) (apiKey : String) : Bool × AuthState :=
  match aget st.apiKeys apiKey with
  | none => (false, st)
  | some key =>
    if key.revoked then (false, st)
    else if now > key.expiresAt then
      (false, (revokeApiKey st apiKey).2)
    else
      (true, { st with apiKeys := aset st.apiKeys apiKey { key with lastUsed := some now } })

/-- AuthenticationService.refreshApiKey (part_006, lines 202 to 223): an
unknown, revoked or expired key yields null with no change; otherwise
the expiry becomes now plus the API key TTL (not the prior expiry plus
the TTL), lastUsed is stamped, and the key with its new expiry is
returned. -/
def refreshApiKey (st : AuthState) (now : Nat) (apiKey : String) :
    AuthState × Option (String × Nat) :=
  match aget st.apiKeys apiKey with
  | none => (st, none)
  | some key =>
    if key.revoked || decide (now > key.expiresAt) then (st, none)
    else
      let key' := { key with expiresAt := now + st.apiKeyTTL, lastUsed := some now }
      ({ st with apiKeys := aset st.apiKeys apiKey key' }, some (apiKey, key'.expiresAt))

/- Model of WebSocketServer (WebSocketServer.ts). Sockets, timers and
ping bookkeeping are dropped; the subscription bookkeeping (the clients
map and the sessionClients map of client id sets) is kept in full. The
validity of an API key, which the server delegates to the injected
AuthenticationService, is passed as a Boolean-valued function. -/

/-- Per-client state of WebSocketServer (interface WebSocketClient). -/
structure WebSocketClient where
  sessionId : Option String
  authenticated : Bool
  apiKey : Option String
  deviceId : Option String
deriving Repr, DecidableEq

/-- The subscription-relevant state of WebSocketServer: the clients map
and the map of session id to the set of subscribed client ids, the set
kept as a list in insertion order. -/
structure WSState where
  clients : List (String × WebSocketClient)
  sessionClients : List (String × List String)
deriving Repr, DecidableEq

/-- The empty server state. -/
def WSState.empty : WSState := ⟨[], []⟩

/-- JS Set.add: append when absent. -/
def setAdd (l : List String) (x : String) : List String :=
  if x ∈ l then l else l ++ [x]

/-- The subscriber set of a session, empty when the session is not in
the map. -/
def sessionList (st : WSState) (sid : String) : List String :=
  (aget st.sessionClients sid).getD []

/-- WebSocketServer.addClientToSession (lines 318 to 323): create the
set on first use, then add the client id. -/
def addClientToSession (st : WSState) (clientId sessionId : String) : WSState :=
  { st with
      sessionClients :=
        aset st.sessionClients sessionId (setAdd (sessionList st sessionId) clientId) }

/-- WebSocketServer.removeClientFromSession (lines 325 to 333): delete
the client id from the set, dropping the whole entry when it empties. -/
def removeClientFromSession (st : WSState) (clientId sessionId : String) : WSState :=
  match aget st.sessionClients sessionId with
  | none => st
  | some clients =>
    let clients' := clients.filter (fun c => c != clientId)
    if clients'.isEmpty then
      { st with sessionClients := adel st.sessionClients sessionId }
    else
      { st with sessionClients := aset st.sessionClients sessionId clients' }

/-- WebSocketServer.isAuthenticated (lines 373 to 375): the client
carries an API key and the key validates. -/
def isAuthenticatedClient (valid : String → Bool) (c : WebSocketClient) : Bool :=
  match c.apiKey with
  | some k => valid k
  | none => false

/-- WebSocketServer.handleConnection (lines 87 to 126): record the new
client with the sessionId and apiKey query parameters, and, when a
session id came in the query and the query API key validates, add the
client to that session's subscriber set at once, with no check against
an existing subscriber. -/
def handleConnection (st : WSState) (valid : String → Bool) (clientId : String)
    (querySessionId queryApiKey : Option String) : WSState :=
  let client : WebSocketClient :=
    { sessionId := querySessionId, authenticated := false,
      apiKey := queryApiKey, deviceId := none }
  let st1 : WSState := { st with clients := aset st.clients clientId client }
  match querySessionId with
  | some sid => if isAuthenticatedClient valid client then addClientToSession st1 clientId sid else st1
  | none => st1

/-- WebSocketServer.handleAuthentication (lines 190 to 215): when the
payload key validates, mark the client authenticated and store the key;
otherwise leave the state unchanged (only a failure reply is sent). -/
def handleAuthentication (st : WSState) (valid : String → Bool) (clientId : String)
    (payloadApiKey : Option String) : WSState :=
  match aget st.clients clientId with
  | none => st
  | some client =>
    let ok := match payloadApiKey with
      | some k => valid k
      | none => false
    if ok then
      { st with
          clients := aset st.clients clientId
            { client with authenticated := true, apiKey := payloadApiKey } }
    else st

/-- The replies handleSubscription sends, keyed by recipient client id.
The tookOver flag of the subscribed payload is omitted from the model;
no claim concerns it. -/
inductive ServerMsg where
  | errorMsg : String → ServerMsg
  | sessionOccupied : String → String → ServerMsg
  | sessionTakenOver : String → String → ServerMsg
  | subscribed : String → ServerMsg
deriving Repr, DecidableEq

/-- The takeover loop of handleSubscription (lines 252 to 279), folded
over a snapshot of the existing subscriber set: each existing client
still present in the clients map is sent session_taken_over naming the
incoming client by its raw API key (falling back to the literal Another
device), removed from the session set, and has its sessionId field
cleared when it pointed at this session. -/
def evictLoop (cl : WebSocketClient) (sid : String) :
    WSState → List String → WSState × List (String × ServerMsg)
  | st, [] => (st, [])
  | st, eid :: rest =>
    match aget st.clients eid with
    | none => evictLoop cl sid st rest
    | some existingClient =>
      let st1 := removeClientFromSession st eid sid
      let st2 :=
        if existingClient.sessionId = some sid then
          { st1 with
              clients := aset st1.clients eid { existingClient with sessionId := none } }
        else st1
      let next := evictLoop cl sid st2 rest
      (next.1, (eid, ServerMsg.sessionTakenOver sid (cl.apiKey.getD "Another device")) :: next.2)

/-- The subscribe-new-client tail of handleSubscription (lines 283 to
285): add the client to the session set and point its sessionId field at
the session. -/
def installSubscriber (st : WSState) (clientId sessionId : String) : WSState :=
  let st1 := addClientToSession st clientId sessionId
  match aget st1.clients clientId with
  | some c =>
    { st1 with
        clients := aset st1.clients clientId { c with sessionId := some sessionId } }
  | none => st1

/-- WebSocketServer.handleSubscription (lines 217 to 297). An unknown or
unauthenticated client gets an error; a missing or empty session id gets
an error; an occupied session without forceTakeover gets a
session_occupied reply naming the first existing subscriber by its
deviceId (or Unknown device) and changes nothing; with forceTakeover the
existing subscribers are evicted through the takeover loop; finally the
client is added to the session set and its sessionId field updated. -/
def handleSubscription (st : WSState) (clientId : String)
    (payloadSessionId : Option String) (forceTakeover : Bool) :
    WSState × List (String × ServerMsg) :=
  match aget st.clients clientId with
  | none => (st, [(clientId, ServerMsg.errorMsg "Authentication required")])
  | some client =>
    if !client.authenticated then
      (st, [(clientId, ServerMsg.errorMsg "Authentication required")])
    else
      match payloadSessionId with
      | none => (st, [(clientId, ServerMsg.errorMsg "Session ID required")])
      | some sessionId =>
        if sessionId = "" then
          (st, [(clientId, ServerMsg.errorMsg "Session ID required")])
        else
          let existingClients := sessionList st sessionId
          if !existingClients.isEmpty && !forceTakeover then
            let existingViewer :=
              match existingClients.head? with
              | some eid =>
                match aget st.clients eid with
                | some ec => ec.deviceId.getD "Unknown device"
                | none => "Unknown device"
              | none => "Unknown device"
            (st, [(clientId, ServerMsg.sessionOccupied sessionId existingViewer)])
          else
            let evicted :=
              if !existingClients.isEmpty && forceTakeover then
                evictLoop client sessionId st existingClients
              else (st, [])
            (installSubscriber evicted.1 clientId sessionId,
             evicted.2 ++ [(clientId, ServerMsg.subscribed sessionId)])

/-- The per-session exclusivity invariant of the spec: at most one
subscriber per session at any instant. -/
def atMostOneSubscriber (st : WSState) : Prop :=
  ∀ sid, (sessionList st sid).length ≤ 1

/-- Coherence of the server state: every client id recorded in a session
subscriber set is a live entry of the clients map. -/
def coherentState (st : WSState) : Prop :=
  ∀ sid cid, cid ∈ sessionList st sid → (aget st.clients cid).isSome = true

/- Model of the session-state broadcasting of ConnectionManager
(ConnectionManager.ts) and of the inactivity notification path. The
payloads of the per-session messages are kept as typed data. -/

/-- The payload variants of a SessionMessage that the claims concern. -/
inductive SessionMessageData where
  | messageData : JsVal → JsVal → JsVal → SessionMessageData
  | stateData : String → JsVal → SessionMessageData
  | inactivityData : String → String → String → SessionMessageData
deriving Repr

/-- A SessionMessage as broadcast to the subscribers of a session: its
type tag, the session id value, and its payload. -/
structure SessionMessage where
  type : String
  sessionId : JsVal
  data : SessionMessageData
deriving Repr

/-- The state string a SessionMessage carries, when it is a state
message. -/
def stateOfMsg (m : SessionMessage) : Option String :=
  match m.data with
  | .stateData s _ => some s
  | _ => none

/-- ConnectionManager.broadcastSessionState (lines 284 to 308): the
state is idle only when the recent-message list is empty; otherwise it
is working when the last message has type user (the type field, not
message.role, under JS strict string equality) and waiting for every
other last message. -/
def broadcastSessionState (sessionId : JsVal) (recentMessages : List ClaudeCodeMessage)
    (nowIso : String) : SessionMessage :=
  let state : String :=
    match recentMessages.getLast? with
    | none => "idle"
    | some lastMessage => if lastMessage.type.eqStr "user" then "working" else "waiting"
  let lastActivity : JsVal :=
    match recentMessages.getLast? with
    | none => JsVal.jstr nowIso
    | some lastMessage => lastMessage.timestamp
  { type := "state", sessionId := sessionId,
    data := SessionMessageData.stateData state lastActivity }

/-- ConnectionManager.handleNewMessage (lines 117 to 144): the messages
broadcast to the session in order, a message envelope followed
immediately by the state derived from the singleton list holding just
this record. -/
def handleNewMessage (message : ClaudeCodeMessage) (nowIso : String) : List SessionMessage :=
  [ { type := "message", sessionId := message.sessionId,
      data := SessionMessageData.messageData message.type
        (message.message.access "content" |>.getD JsVal.jnull) message.parentUuid },
    broadcastSessionState message.sessionId [message] nowIso ]

/-- ConnectionManager.handleSessionInactive (lines 211 to 235): the one
message broadcast to the session when the monitor reports inactivity; a
message of type inactivity whose payload holds a reason text and the
last activity stamp, with no state field at all. -/
def handleSessionInactive (sessionId projectPath : String) (reason : String)
    (lastActivity : String) : SessionMessage :=
  { type := "inactivity", sessionId := JsVal.jstr sessionId,
    data := SessionMessageData.inactivityData
      (if reason = "inactivity_timeout" then "Session inactive for more than 10 minutes" else reason)
      lastActivity projectPath }

/- Chunked-write runs of the tailer, for comparing a file written in
pieces against the same content written at once. -/

/-- Whether a character list ends with a newline. -/
def lastIsNl : List Char → Bool
  | [] => false
  | [c] => c == '\n'
  | _ :: c :: rest => lastIsNl (c :: rest)

/-- A write chunk that is empty or ends at a newline boundary. -/
def chunkOk (c : List Char) : Prop :=
  c = [] ∨ lastIsNl c = true

instance decidableChunkOk : DecidablePred chunkOk := fun c => by
  unfold chunkOk
  exact inferInstance

/-- The successive file contents produced by appending each chunk to the
running prefix. -/
def cumulContents (pre : List Char) : List (List Char) → List (List Char)
  | [] => []
  | c :: cs => (pre ++ c) :: cumulContents (pre ++ c) cs

/-- Tail a file that starts empty and receives the chunks as successive
appends, one change notification per append. -/
def tailChunkedEvents (filePath : String) (chunks : List (List Char)) : List TailEvent :=
  runChanges MonitorState.empty filePath ((cumulContents [] chunks).map (fun c => (c, 0)))

/-- Tail a file that starts empty and receives the whole content in one
write, one change notification. -/
def tailSingleEvents (filePath : String) (content : List Char) : List TailEvent :=
  runChanges MonitorState.empty filePath [(content, 0)]

/-- The acceptance condition of the frozen claims stated independently:
the object carries the named field and its value is truthy. -/
def hasTruthyField (v : JsVal) (k : String) : Prop :=
  ∃ w, v.access k = some w ∧ w.truthy = true

/- Concrete inputs for the counterexamples and witnesses. -/

/-- A well-formed log line with a longer content string. -/
def jsonLineLong : String :=
  "\x7b\"sessionId\":\"s1\",\"type\":\"user\",\"message\":\"hello there\",\"timestamp\":\"t1\"\x7d"

/-- A well-formed log line with a one-character content string, strictly
shorter than jsonLineLong. -/
def jsonLineShort : String :=
  "\x7b\"sessionId\":\"s1\",\"type\":\"user\",\"message\":\"m\",\"timestamp\":\"t1\"\x7d"

/-- A second well-formed log line. -/
def jsonLineSecond : String :=
  "\x7b\"sessionId\":\"s1\",\"type\":\"assistant\",\"message\":\"n\",\"timestamp\":\"t2\"\x7d"

/-- The record parseJSONLLine yields for jsonLineLong. -/
def recLong : ClaudeCodeMessage :=
  ⟨JsVal.jstr "", JsVal.jstr "s1", JsVal.jstr "user", JsVal.jstr "hello there",
   JsVal.jstr "t1", JsVal.jstr ""⟩

/-- The record parseJSONLLine yields for jsonLineShort. -/
def recShort : ClaudeCodeMessage :=
  ⟨JsVal.jstr "", JsVal.jstr "s1", JsVal.jstr "user", JsVal.jstr "m",
   JsVal.jstr "t1", JsVal.jstr ""⟩

/-- The record parseJSONLLine yields for jsonLineSecond. -/
def recSecond : ClaudeCodeMessage :=
  ⟨JsVal.jstr "", JsVal.jstr "s1", JsVal.jstr "assistant", JsVal.jstr "n",
   JsVal.jstr "t2", JsVal.jstr ""⟩

/-- Change-notification sequence for the truncation scenario: one full
line, then the file truncated to a shorter full line, then one more line
appended after the truncation. -/
def truncRunContents : List (List Char × Nat) :=
  [((jsonLineLong ++ "\n").data, 0),
   ((jsonLineShort ++ "\n").data, 1),
   ((jsonLineShort ++ "\n" ++ jsonLineSecond ++ "\n").data, 2)]

/-- Change-notification sequence for the truncate-to-zero scenario of
the spec: one full line, the file truncated to zero bytes, then one new
line appended. -/
def truncZeroRunContents : List (List Char × Nat) :=
  [((jsonLineLong ++ "\n").data, 0),
   (("" : String).data, 1),
   ((jsonLineShort ++ "\n").data, 2)]

/-- The full content of the chunk-split scenario. -/
def chunkFull : List Char := (jsonLineLong ++ "\n").data

/-- The first ten characters of chunkFull: a mid-line split. -/
def chunkA : List Char := chunkFull.take 10

/-- The rest of chunkFull after the mid-line split. -/
def chunkB : List Char := chunkFull.drop 10

/-- A JSON object that violates the spec schema (type is banana, message
is a bare string with no role or content, timestamp is not a date) yet
carries all four fields truthy. -/
def badSchemaLine : String :=
  "\x7b\"sessionId\":\"s\",\"type\":\"banana\",\"message\":\"hi\",\"timestamp\":\"x\"\x7d"

/-- Auth state holding one fresh guest token T1 issued at time 0 with a
30 unit TTL. -/
def authStateToken : AuthState :=
  { guestTokens := [("T1", { expires := 30, deviceId := none, used := false, createdAt := 0 })],
    apiKeys := [], qrTokenTTL := 30, apiKeyTTL := 100 }

/-- Auth state holding one valid credential K1 expiring at 100, under a
TTL of 100. -/
def authStateKey : AuthState :=
  { guestTokens := [],
    apiKeys := [("K1", { deviceId := "D1", createdAt := 0, expiresAt := 100,
                         lastUsed := none, revoked := false })],
    qrTokenTTL := 30, apiKeyTTL := 100 }

/-- Auth state holding one credential K2 that expired at 10. -/
def authStateExpired : AuthState :=
  { guestTokens := [],
    apiKeys := [("K2", { deviceId := "D2", createdAt := 0, expiresAt := 10,
                         lastUsed := none, revoked := false })],
    qrTokenTTL := 30, apiKeyTTL := 100 }

/-- A validation function under which every key is accepted, standing
for an AuthenticationService that knows the keys the scenario uses. -/
def allKeysValid : String → Bool := fun _ => true

/-- The server state after: client A connects with no query parameters,
authenticates with key KA and subscribes to session S; then client B
opens a new WebSocket connection whose URL carries sessionId S and a
valid apiKey KB as query parameters. -/
def twoViewerScenario : WSState :=
  handleConnection
    ((handleSubscription
        (handleAuthentication
          (handleConnection WSState.empty allKeysValid "A" none (some "KA"))
          allKeysValid "A" (some "KA"))
        "A" (some "S") false).1)
    allKeysValid "B" (some "S") (some "KB")

/-- Server state with client A authenticated and subscribed to session S
and client B authenticated with key KB, not yet subscribed. -/
def takeoverScenario : WSState :=
  { clients :=
      [("A", { sessionId := some "S", authenticated := true,
               apiKey := some "KA", deviceId := none }),
       ("B", { sessionId := none, authenticated := true,
               apiKey := some "KB", deviceId := none })],
    sessionClients := [("S", ["A"])] }

/- Theorems. General lemmas about the association list operations first. -/

theorem aget_aset_self {α : Type} (l : List (String × α)) (k : String) (v : α) :
    aget (aset l k v) k = some v := by
  induction l with
  | nil => simp [aget, aset]
  | cons p rest ih =>
    by_cases h : p.1 = k <;> simp [aget, aset, h, ih]

theorem aget_aset_ne {α : Type} (l : List (String × α)) (k k' : String) (v : α)
    (h : k' ≠ k) : aget (aset l k v) k' = aget l k' := by
  have hne : ¬(k = k') := fun e => h e.symm
  induction l with
  | nil => simp [aget, aset, hne]
  | cons p rest ih =>
    by_cases hp : p.1 = k
    · have hp' : ¬(p.1 = k') := by rw [hp]; exact hne
      simp [aget, aset, hp, hne, hp']
    · simp only [aset, hp, if_false, aget]
      by_cases hp' : p.1 = k' <;> simp [hp', ih]

theorem aget_adel_self {α : Type} (l : List (String × α)) (k : String) :
    aget (adel l k) k = none := by
  induction l with
  | nil => simp [aget, adel]
  | cons p rest ih =>
    by_cases h : p.1 = k <;> simp [aget, adel, h, ih]

theorem aget_adel_ne {α : Type} (l : List (String × α)) (k k' : String)
    (h : k' ≠ k) : aget (adel l k) k' = aget l k' := by
  have hne : ¬(k = k') := fun e => h e.symm
  induction l with
  | nil => simp [adel]
  | cons p rest ih =>
    by_cases hp : p.1 = k
    · have hp' : ¬(p.1 = k') := by rw [hp]; exact hne
      simp [adel, hp, aget, hp', hne, ih]
    · simp only [adel, hp, if_false, aget]
      by_cases hp' : p.1 = k' <;> simp [hp', ih]

theorem aget_aset_isSome {α : Type} (l : List (String × α)) (k k' : String) (v : α)
    (h : (aget l k').isSome = true) : (aget (aset l k v) k').isSome = true := by
  by_cases hk : k' = k
  · subst hk; simp [aget_aset_self]
  · rw [aget_aset_ne l k k' v hk]; exact h

/-- C2: after a truncation the tailer resets its offset to 0 and
re-reads, but the truncation branch of handleFileChanged never advances
filePositions past what the re-read consumed, so the re-read content is
delivered again on the next change event: in the first run the file
holds jsonLineLong, is truncated to jsonLineShort, and then receives
jsonLineSecond as an append, and the subscriber sees recShort twice even
though both deliveries fall in the epoch the truncation opened. The
second run shows the concrete scenario the spec states does hold:
truncating to zero bytes yields no duplicate, and one appended line
yields exactly one more record. -/
theorem tailer_truncation_redelivery :
    runChanges MonitorState.empty "s1.jsonl" truncRunContents =
      [TailEvent.newMessage recLong, TailEvent.newMessage recShort,
       TailEvent.newMessage recShort, TailEvent.newMessage recSecond]
    ∧ runChanges MonitorState.empty "s1.jsonl" truncZeroRunContents =
      [TailEvent.newMessage recLong, TailEvent.newMessage recShort] :=
  ⟨by rfl, by rfl⟩

theorem truthyOpt_iff (o : Option JsVal) :
    JsVal.truthyOpt o = true ↔ ∃ w, o = some w ∧ w.truthy = true := by
  cases o <;> simp [JsVal.truthyOpt]

theorem validateMessage_accepts_iff (v : JsVal) :
    (validateMessage v).isSome = true ↔
      (hasTruthyField v "sessionId" ∧ hasTruthyField v "type" ∧
       hasTruthyField v "message" ∧ hasTruthyField v "timestamp") := by
  have e : (validateMessage v).isSome =
      (JsVal.truthyOpt (v.access "sessionId") && JsVal.truthyOpt (v.access "type") &&
       JsVal.truthyOpt (v.access "message") && JsVal.truthyOpt (v.access "timestamp")) := by
    unfold validateMessage
    by_cases h1 : JsVal.truthyOpt (v.access "sessionId") <;>
      by_cases h2 : JsVal.truthyOpt (v.access "type") <;>
        by_cases h3 : JsVal.truthyOpt (v.access "message") <;>
          by_cases h4 : JsVal.truthyOpt (v.access "timestamp") <;>
            simp [h1, h2, h3, h4]
  rw [e]
  simp only [Bool.and_eq_true]
  rw [truthyOpt_iff, truthyOpt_iff, truthyOpt_iff, truthyOpt_iff]
  unfold hasTruthyField
  tauto

/-- C7 (amended): parseJSONLLine yields a record iff the line parses as
JSON and the four fields sessionId, type, message and timestamp are
present and truthy; it checks nothing else (no membership of type in
user or assistant, no message.role, no message.content string, no RFC
3339 timestamp), and on rejection it returns null with no ParseError
value of any kind. -/
theorem parseJSONLLine_accepts_iff (line : String) :
    (parseJSONLLine line).isSome = true ↔
      ∃ v, jsonParse line = some v ∧
        (hasTruthyField v "sessionId" ∧ hasTruthyField v "type" ∧
         hasTruthyField v "message" ∧ hasTruthyField v "timestamp") := by
  unfold parseJSONLLine
  cases hj : jsonParse line with
  | none => simp
  | some v => simp [validateMessage_accepts_iff]

/-- C7 (counterexample): a well-formed JSON object whose type is the
string banana, whose message is a bare string with no role or content
field, and whose timestamp is not a date is accepted by parseJSONLLine
as a record, where the claim requires a schema ParseError for it. -/
theorem schema_violating_line_accepted :
    (parseJSONLLine badSchemaLine).isSome = true ∧
    (jsonParse badSchemaLine).bind (fun v => v.access "type") = some (JsVal.jstr "banana") ∧
    ("banana" ≠ "user" ∧ "banana" ≠ "assistant") :=
  ⟨by rfl, by rfl, by decide, by decide⟩

/-- C8 (amended): a malformed line, whether a JSON syntax error or a
shape the truthiness checks reject, is dropped with no delivery and no
event of any kind: the parse-error emission in readNewContent is dead
code, because parseJSONLLine catches every exception internally and
returns null instead of throwing. -/
theorem malformed_line_dropped_silently (line : List Char)
    (h : parseJSONLLine (String.mk line) = none) :
    processLine line = [] := by
  simp [processLine, h]

/-- Witness for C8: the line of text not json is malformed, and
processing it emits nothing. -/
theorem malformed_line_dropped_silently_witness :
    parseJSONLLine (String.mk ("not json".data)) = none ∧
    processLine ("not json".data) = [] :=
  ⟨by rfl, malformed_line_dropped_silently ("not json".data) (by rfl)⟩

/-- C8 (counterexample): the claim requires a parse-error event for a
malformed line; reading a file holding only the malformed line not json
emits no event at all, parse-error or otherwise. -/
theorem malformed_line_emits_no_event :
    parseJSONLLine "not json" = none ∧
    readNewContent ("not json\n".data) 0 = [] :=
  ⟨by rfl, by rfl⟩

theorem rlSplitAux_cons (c : Char) (cs acc : List Char) :
    rlSplitAux (c :: cs) acc =
      if c = '\n' then acc.reverse :: rlSplitAux cs [] else rlSplitAux cs (c :: acc) :=
  rfl

theorem rlSplitAux_append : ∀ (a : List Char), lastIsNl a = true →
    ∀ (acc b : List Char), rlSplitAux (a ++ b) acc = rlSplitAux a acc ++ rlSplitAux b [] := by
  intro a
  induction a with
  | nil => intro h; simp [lastIsNl] at h
  | cons c rest ih =>
    intro h acc b
    cases rest with
    | nil =>
      have hc : c = '\n' := by simpa [lastIsNl] using h
      subst hc
      simp [rlSplitAux]
    | cons c2 rest2 =>
      have h' : lastIsNl (c2 :: rest2) = true := by simpa [lastIsNl] using h
      rw [List.cons_append, rlSplitAux_cons, rlSplitAux_cons c (c2 :: rest2) acc]
      rw [ih h' [] b]
      by_cases hc : c = '\n'
      · simp [hc]
      · rw [if_neg hc, if_neg hc, ih h' (c :: acc) b]

theorem rlSplit_append (a b : List Char) (h : lastIsNl a = true) :
    rlSplit (a ++ b) = rlSplit a ++ rlSplit b :=
  rlSplitAux_append a h [] b

theorem handleFileChanged_noop (st : MonitorState) (p : String) (content : List Char)
    (now : Nat) (h : content.length = (aget st.filePositions p).getD 0) :
    handleFileChanged st p content now =
      ({ st with lastActivity := aset st.lastActivity p now }, []) := by
  simp only [handleFileChanged]
  rw [if_neg (by omega), if_neg (by omega)]

theorem handleFileChanged_grow (st : MonitorState) (p : String) (content : List Char)
    (now : Nat) (h : (aget st.filePositions p).getD 0 < content.length) :
    handleFileChanged st p content now =
      ({ st with lastActivity := aset st.lastActivity p now,
                 filePositions := aset st.filePositions p content.length },
       readNewContent content ((aget st.filePositions p).getD 0)) := by
  simp only [handleFileChanged]
  rw [if_neg (by omega), if_pos (by omega)]

theorem runChanges_cumul (p : String) : ∀ (chunks : List (List Char)) (st : MonitorState)
    (pre : List Char),
    (aget st.filePositions p).getD 0 = pre.length →
    (∀ c ∈ chunks, chunkOk c) →
    runChanges st p ((cumulContents pre chunks).map (fun c => (c, 0))) =
      ((rlSplit chunks.flatten).map processLine).flatten := by
  intro chunks
  induction chunks with
  | nil =>
    intro st pre hpos hok
    simp [cumulContents, runChanges, rlSplit, rlSplitAux]
  | cons c cs ih =>
    intro st pre hpos hok
    have hc : chunkOk c := hok c (List.mem_cons_self c cs)
    have hcs : ∀ x ∈ cs, chunkOk x := fun x hx => hok x (List.mem_cons_of_mem c hx)
    simp only [cumulContents, List.map_cons, runChanges]
    rcases hc with hce | hcnl
    · subst hce
      rw [handleFileChanged_noop st p (pre ++ []) 0 (by simpa using hpos.symm)]
      simp only [List.append_nil]
      rw [ih { filePositions := st.filePositions, lastActivity := aset st.lastActivity p 0 }
        pre hpos hcs]
      simp
    · have hne : c ≠ [] := by
        intro e; subst e; simp [lastIsNl] at hcnl
      have hgt : (aget st.filePositions p).getD 0 < (pre ++ c).length := by
        rw [hpos]
        simp only [List.length_append]
        have : 0 < c.length := List.length_pos.mpr hne
        omega
      rw [handleFileChanged_grow st p (pre ++ c) 0 hgt]
      rw [hpos]
      have hdrop : (pre ++ c).drop pre.length = c := List.drop_left pre c
      have hread : readNewContent (pre ++ c) pre.length =
          ((rlSplit c).map processLine).flatten := by
        unfold readNewContent
        rw [hdrop]
      rw [hread]
      rw [ih _ (pre ++ c) (by simp [aget_aset_self]) hcs]
      rw [List.flatten_cons, rlSplit_append c cs.flatten hcnl]
      simp

theorem tailSingleEvents_eq (p : String) (content : List Char) :
    tailSingleEvents p content = ((rlSplit content).map processLine).flatten := by
  unfold tailSingleEvents runChanges
  by_cases h : content = []
  · subst h
    rw [handleFileChanged_noop MonitorState.empty p [] 0 (by simp [MonitorState.empty, aget])]
    simp [runChanges, rlSplit, rlSplitAux]
  · have hgt : (aget MonitorState.empty.filePositions p).getD 0 < content.length := by
      simp only [MonitorState.empty, aget, Option.getD_none]
      exact List.length_pos.mpr h
    rw [handleFileChanged_grow MonitorState.empty p content 0 hgt]
    simp [runChanges, readNewContent, MonitorState.empty, aget]

/-- C3 (amended): tailing a file written in chunks delivers the same
record sequence as tailing it after a single write of the whole content,
provided every chunk ends at a newline boundary. Without that proviso
the equivalence fails: readNewContent buffers nothing across reads, and
the readline interface it uses treats the end of the read stream as a
line terminator, so a trailing partial line is handed to the parser as
if it were complete (and, failing to parse, is silently dropped) instead
of being buffered until its remainder arrives. -/
theorem chunked_write_equals_single_write (filePath : String) (chunks : List (List Char))
    (h : ∀ c ∈ chunks, chunkOk c) :
    tailChunkedEvents filePath chunks = tailSingleEvents filePath chunks.flatten := by
  unfold tailChunkedEvents
  rw [runChanges_cumul filePath chunks MonitorState.empty []
    (by simp [MonitorState.empty, aget]) h]
  rw [tailSingleEvents_eq]

/-- Witness for C3: two newline-terminated chunks, each a complete log
line, deliver the same events chunked as in one write. -/
theorem chunked_write_equals_single_write_witness :
    (∀ c ∈ [(jsonLineShort ++ "\n").data, (jsonLineSecond ++ "\n").data], chunkOk c) ∧
    tailChunkedEvents "s1.jsonl" [(jsonLineShort ++ "\n").data, (jsonLineSecond ++ "\n").data] =
      tailSingleEvents "s1.jsonl"
        ([(jsonLineShort ++ "\n").data, (jsonLineSecond ++ "\n").data].flatten) :=
  ⟨by decide, chunked_write_equals_single_write "s1.jsonl" _ (by decide)⟩

/-- C3 (counterexample): the full line jsonLineLong written in two
chunks split mid-line delivers no record at all, while the same content
written at once delivers the record; the partial line is not buffered
across reads, it is parsed as a complete line and silently dropped. -/
theorem chunked_write_differs_mid_line :
    tailChunkedEvents "s1.jsonl" [chunkA, chunkB] = []
    ∧ tailSingleEvents "s1.jsonl" (chunkA ++ chunkB) = [TailEvent.newMessage recLong]
    ∧ chunkA ++ chunkB = chunkFull :=
  ⟨by rfl, by rfl, by simp [chunkA, chunkB]⟩

/-- C4 (amended): an enrollment token redeems at most once, but not with
the claimed error code: the first valid redemption marks the token used
and then deletes it from the table, so every later redemption attempt
with the same token takes the unknown-token path and fails with
invalid_token, surfaced over HTTP as status 401; the already_consumed
409 branch is unreachable for a redeemed token. -/
theorem redeemed_token_second_attempt_invalid (st : AuthState) (now : Nat)
    (t d fk : String) (st1 : AuthState) (k : String)
    (h : authenticateMobile st now t d fk = (st1, Except.ok k)) :
    aget st1.guestTokens t = none
    ∧ (∀ (now2 : Nat) (d2 fk2 : String),
        (authenticateMobile st1 now2 t d2 fk2).2 = Except.error AuthError.invalidToken)
    ∧ httpStatusMobile AuthError.invalidToken = 401 := by
  have hg : aget st1.guestTokens t = none := by
    unfold authenticateMobile at h
    cases haget : aget st.guestTokens t with
    | none => rw [haget] at h; simp at h
    | some token =>
      rw [haget] at h
      by_cases hu : token.used = true
      · simp [hu] at h
      · by_cases he : now > token.expires
        · simp [hu, he] at h
        · simp only [hu, he, if_false, if_neg, Bool.false_eq_true, Prod.mk.injEq] at h
          rw [← h.1]
          exact aget_adel_self _ t
  refine ⟨hg, ?_, by decide⟩
  intro now2 d2 fk2
  unfold authenticateMobile
  rw [hg]

/-- Witness for C4: token T1 redeems once at time 1, and the second
attempt at time 2 fails with invalid_token. -/
theorem redeemed_token_second_attempt_invalid_witness :
    (authenticateMobile authStateToken 1 "T1" "D1" "K1").2 = Except.ok "K1"
    ∧ (authenticateMobile (authenticateMobile authStateToken 1 "T1" "D1" "K1").1
        2 "T1" "D2" "K2").2 = Except.error AuthError.invalidToken :=
  ⟨by rfl,
   (redeemed_token_second_attempt_invalid authStateToken 1 "T1" "D1" "K1"
      (authenticateMobile authStateToken 1 "T1" "D1" "K1").1 "K1" (by rfl)).2.1 2 "D2" "K2"⟩

/-- C4 (counterexample): redeeming T1 a second time yields the
invalid-token error, which the /api/auth/mobile handler maps to HTTP
401, not to 409 already_consumed as the claim states. -/
theorem second_redemption_not_409 :
    (authenticateMobile authStateToken 1 "T1" "D1" "K1").2 = Except.ok "K1"
    ∧ (authenticateMobile (authenticateMobile authStateToken 1 "T1" "D1" "K1").1
        2 "T1" "D1" "K2").2 = Except.error AuthError.invalidToken
    ∧ httpStatusMobile AuthError.invalidToken = 401
    ∧ ¬ httpStatusMobile AuthError.invalidToken = 409 :=
  ⟨by rfl, by rfl, by decide, by decide⟩

/-- C5 (amended): refresh of a currently valid credential sets its
expiry to now plus the credential TTL (not to the prior expiry plus the
TTL) and stamps lastUsed, leaving every other key untouched; refresh of
an unknown, revoked or expired key returns null and changes nothing. -/
theorem refreshApiKey_spec :
    (∀ (st : AuthState) (now : Nat) (key : String) (e : ApiKey),
        aget st.apiKeys key = some e → e.revoked = false → now ≤ e.expiresAt →
        refreshApiKey st now key =
          ({ st with
              apiKeys := aset st.apiKeys key
                  ({ e with expiresAt := now + st.apiKeyTTL, lastUsed := some now }) },
           some (key, now + st.apiKeyTTL)))
    ∧ (∀ (st : AuthState) (now : Nat) (key k2 : String), k2 ≠ key →
        aget (refreshApiKey st now key).1.apiKeys k2 = aget st.apiKeys k2)
    ∧ (∀ (st : AuthState) (now : Nat) (key : String),
        aget st.apiKeys key = none → refreshApiKey st now key = (st, none))
    ∧ (∀ (st : AuthState) (now : Nat) (key : String) (e : ApiKey),
        aget st.apiKeys key = some e → (e.revoked = true ∨ now > e.expiresAt) →
        refreshApiKey st now key = (st, none)) := by
  refine ⟨?_, ?_, ?_, ?_⟩
  · intro st now key e hg hr hexp
    unfold refreshApiKey
    rw [hg]
    simp [hr, Nat.not_lt.mpr hexp]
  · intro st now key k2 hne
    unfold refreshApiKey
    cases hg : aget st.apiKeys key with
    | none => rfl
    | some e =>
      by_cases hb : (e.revoked || decide (now > e.expiresAt)) = true
      · simp [hb]
      · simp only [hb, if_false, Bool.false_eq_true]
        exact aget_aset_ne _ key k2 _ hne
  · intro st now key hg
    unfold refreshApiKey
    rw [hg]
  · intro st now key e hg hbad
    unfold refreshApiKey
    rw [hg]
    rcases hbad with hb | hb
    · simp [hb]
    · simp [hb]

/-- Witness for C5: refreshing the valid key K1 at time 10 under TTL 100
yields expiry 110 and updates only that entry. -/
theorem refreshApiKey_spec_witness :
    refreshApiKey authStateKey 10 "K1" =
      ({ authStateKey with
          apiKeys := aset authStateKey.apiKeys "K1"
              ({ deviceId := "D1", createdAt := 0, expiresAt := 110,
                 lastUsed := some 10, revoked := false }) },
       some ("K1", 110)) :=
  refreshApiKey_spec.1 authStateKey 10 "K1"
    { deviceId := "D1", createdAt := 0, expiresAt := 100, lastUsed := none, revoked := false }
    (by rfl) (by rfl) (by decide)

/-- C5 (counterexample): the credential K1 was minted at time 0 with TTL
100, so its prior expiry is 100; refreshing at time 10 yields expiry
110, while the claim requires at least prior plus TTL minus epsilon,
that is 200 minus epsilon; the shortfall is 90 time units, the whole
remaining validity of the credential, far beyond any clock slack. -/
theorem refresh_not_additive :
    (refreshApiKey authStateKey 10 "K1").2 = some ("K1", 110)
    ∧ 110 < 100 + 100 :=
  ⟨by rfl, by decide⟩

/-- C9 (amended): validation never changes other entries, never changes
deviceId, createdAt or expiresAt, and leaves revoked alone for any key
that is not past expiry; but validating an expired unrevoked credential
flips its revoked flag to true through the internal revokeApiKey call,
contrary to the claim that revoked flips only on explicit revoke. -/
theorem validateApiKey_frame :
    (∀ (st : AuthState) (now : Nat) (key k2 : String), k2 ≠ key →
        aget (validateApiKey st now key).2.apiKeys k2 = aget st.apiKeys k2)
    ∧ (∀ (st : AuthState) (now : Nat) (key : String),
        ((aget (validateApiKey st now key).2.apiKeys key).map
            (fun e => (e.deviceId, e.createdAt, e.expiresAt)))
          = ((aget st.apiKeys key).map (fun e => (e.deviceId, e.createdAt, e.expiresAt))))
    ∧ (∀ (st : AuthState) (now : Nat) (key : String) (e : ApiKey),
        aget st.apiKeys key = some e → now ≤ e.expiresAt →
        (aget (validateApiKey st now key).2.apiKeys key).map ApiKey.revoked = some e.revoked)
    ∧ (∀ (st : AuthState) (now : Nat) (key : String) (e : ApiKey),
        aget st.apiKeys key = some e → e.revoked = false → now > e.expiresAt →
        (aget (validateApiKey st now key).2.apiKeys key).map ApiKey.revoked = some true
        ∧ (validateApiKey st now key).1 = false) := by
  refine ⟨?_, ?_, ?_, ?_⟩
  · intro st now key k2 hne
    unfold validateApiKey revokeApiKey
    cases hg : aget st.apiKeys key with
    | none => rfl
    | some e =>
      by_cases hr : e.revoked = true
      · simp [hr]
      · by_cases he : now > e.expiresAt
        · simp only [hr, he, if_true, if_false, Bool.false_eq_true, hg]
          exact aget_aset_ne _ key k2 _ hne
        · simp only [hr, he, if_false, Bool.false_eq_true]
          exact aget_aset_ne _ key k2 _ hne
  · intro st now key
    unfold validateApiKey revokeApiKey
    cases hg : aget st.apiKeys key with
    | none => simp [hg]
    | some e =>
      by_cases hr : e.revoked = true
      · simp [hr, hg]
      · by_cases he : now > e.expiresAt
        · simp [hr, he, hg, aget_aset_self]
        · simp [hr, he, hg, aget_aset_self]
  · intro st now key e hg hexp
    unfold validateApiKey
    rw [hg]
    by_cases hr : e.revoked = true
    · simp [hr, hg]
    · simp [hr, Nat.not_lt.mpr hexp, hg, aget_aset_self]
  · intro st now key e hg hr he
    unfold validateApiKey revokeApiKey
    rw [hg]
    simp [hr, he, hg, aget_aset_self]

/-- Witness for C9: validating the unexpired key K1 at time 5 leaves its
revoked flag false. -/
theorem validateApiKey_frame_witness :
    (aget (validateApiKey authStateKey 5 "K1").2.apiKeys "K1").map ApiKey.revoked = some false :=
  validateApiKey_frame.2.2.1 authStateKey 5 "K1"
    { deviceId := "D1", createdAt := 0, expiresAt := 100, lastUsed := none, revoked := false }
    (by rfl) (by decide)

/-- C9 (counterexample): key K2 expired at time 10 and is not revoked;
validating it at time 11 fails and, as a side effect, sets its revoked
flag, which the claim says can happen only through an explicit revoke
operation. -/
theorem validate_expired_key_revokes :
    (validateApiKey authStateExpired 11 "K2").1 = false
    ∧ (aget authStateExpired.apiKeys "K2").map ApiKey.revoked = some false
    ∧ (aget (validateApiKey authStateExpired 11 "K2").2.apiKeys "K2").map ApiKey.revoked
        = some true :=
  ⟨by rfl, by rfl, by rfl⟩

/-- C6 (amended): a new record broadcasts a message envelope followed
immediately by a session_state derived from that record alone: working
when the record's type field is the string user, waiting for any other
record (the classification reads type, not message.role); the
ten-minute inactivity sweep fires exactly for the files whose last
activity lies more than 10 * 60 * 1000 ms in the past, but what the
subscriber then receives is an inactivity notification, not a
session_state with state idle: the state-message path never produces
idle, because broadcastSessionState is only ever invoked with the
one-record list of the arriving record. -/
theorem session_state_classification :
    (∀ (sid : JsVal) (m : ClaudeCodeMessage) (nowIso : String),
        stateOfMsg (broadcastSessionState sid [m] nowIso) =
          some (if m.type.eqStr "user" then "working" else "waiting"))
    ∧ (∀ (m : ClaudeCodeMessage) (nowIso : String),
        (handleNewMessage m nowIso).map SessionMessage.type = ["message", "state"])
    ∧ (∀ (sid pp reason la : String),
        (handleSessionInactive sid pp reason la).type = "inactivity"
        ∧ stateOfMsg (handleSessionInactive sid pp reason la) = none)
    ∧ (∀ (st : MonitorState) (now : Nat) (p : String × Nat),
        p ∈ (inactivityTick st now).2 ↔ p ∈ st.lastActivity ∧ 10 * 60 * 1000 < now - p.2)
    ∧ (∀ (sid : JsVal) (m : ClaudeCodeMessage) (ms : List ClaudeCodeMessage) (nowIso : String),
        ¬ stateOfMsg (broadcastSessionState sid (m :: ms) nowIso) = some "idle") := by
  refine ⟨?_, ?_, ?_, ?_, ?_⟩
  · intro sid m nowIso
    simp [broadcastSessionState, stateOfMsg]
  · intro m nowIso
    rfl
  · intro sid pp reason la
    exact ⟨rfl, rfl⟩
  · intro st now p
    simp [inactivityTick, List.mem_filter, inactivityThreshold]
  · intro sid m ms nowIso
    cases hl : (m :: ms).getLast? with
    | none => simp at hl
    | some x =>
      simp only [broadcastSessionState, stateOfMsg, hl]
      by_cases hx : x.type.eqStr "user" = true <;> simp [hx]

/-- C6 (counterexample): when the inactivity monitor fires for a
session, the broadcast the subscriber receives has type inactivity and
carries no state field at all; it is not the session_state with state
idle that the claim promises. -/
theorem inactivity_not_session_state_idle :
    (handleSessionInactive "S1" "proj" "inactivity_timeout" "2025-09-14T15:04:35.357Z").type
      = "inactivity"
    ∧ ¬ (handleSessionInactive "S1" "proj" "inactivity_timeout"
          "2025-09-14T15:04:35.357Z").type = "state"
    ∧ stateOfMsg (handleSessionInactive "S1" "proj" "inactivity_timeout"
        "2025-09-14T15:04:35.357Z") = none :=
  ⟨rfl, by decide, rfl⟩

theorem removeClientFromSession_clients (st : WSState) (cid sid : String) :
    (removeClientFromSession st cid sid).clients = st.clients := by
  unfold removeClientFromSession
  cases aget st.sessionClients sid with
  | none => rfl
  | some l => by_cases h : (l.filter (fun c => c != cid)).isEmpty = true <;> simp [h]

theorem removeClientFromSession_sessionList_self (st : WSState) (cid sid : String) :
    sessionList (removeClientFromSession st cid sid) sid =
      (sessionList st sid).filter (fun c => c != cid) := by
  unfold removeClientFromSession
  cases hg : aget st.sessionClients sid with
  | none => simp [sessionList, hg]
  | some l =>
    by_cases h : (l.filter (fun c => c != cid)).isEmpty = true
    · have : l.filter (fun c => c != cid) = [] := by
        cases he : l.filter (fun c => c != cid)
        · rfl
        · rw [he] at h; simp at h
      simp [h, sessionList, aget_adel_self, hg, this]
    · simp [h, sessionList, aget_aset_self, hg]

theorem removeClientFromSession_sessionList_other (st : WSState) (cid sid sid' : String)
    (h : sid' ≠ sid) :
    sessionList (removeClientFromSession st cid sid) sid' = sessionList st sid' := by
  unfold removeClientFromSession
  cases aget st.sessionClients sid with
  | none => rfl
  | some l =>
    by_cases he : (l.filter (fun c => c != cid)).isEmpty = true
    · simp [he, sessionList, aget_adel_ne _ _ _ h]
    · simp [he, sessionList, aget_aset_ne _ _ _ _ h]

theorem evictLoop_clients_isSome (cl : WebSocketClient) (sid : String) :
    ∀ (L : List String) (st : WSState) (e : String),
      (aget st.clients e).isSome = true →
      (aget (evictLoop cl sid st L).1.clients e).isSome = true := by
  intro L
  induction L with
  | nil => intro st e h; exact h
  | cons eid rest ih =>
    intro st e h
    unfold evictLoop
    cases hg : aget st.clients eid with
    | none => exact ih st e h
    | some ec =>
      have h1 : (aget (removeClientFromSession st eid sid).clients e).isSome = true := by
        rw [removeClientFromSession_clients]; exact h
      by_cases hs : ec.sessionId = some sid
      · simp only [hs, if_true, if_pos]
        exact ih _ e (aget_aset_isSome _ _ _ _ h1)
      · simp only [hs, if_false, if_neg, not_false_iff]
        exact ih _ e h1

theorem evictLoop_emits (cl : WebSocketClient) (sid : String) :
    ∀ (L : List String) (st : WSState) (e : String),
      e ∈ L → (aget st.clients e).isSome = true →
      (e, ServerMsg.sessionTakenOver sid (cl.apiKey.getD "Another device"))
        ∈ (evictLoop cl sid st L).2 := by
  intro L
  induction L with
  | nil => intro st e h; simp at h
  | cons eid rest ih =>
    intro st e hmem hlive
    unfold evictLoop
    rcases List.mem_cons.mp hmem with he | he
    · subst he
      cases hg : aget st.clients e with
      | none => rw [hg] at hlive; simp at hlive
      | some ec => simp
    · cases hg : aget st.clients eid with
      | none => exact ih st e he hlive
      | some ec =>
        have h1 : (aget (removeClientFromSession st eid sid).clients e).isSome = true := by
          rw [removeClientFromSession_clients]; exact hlive
        by_cases hs : ec.sessionId = some sid
        · simp only [hs, if_true, if_pos]
          exact List.mem_cons_of_mem _ (ih _ e he (aget_aset_isSome _ _ _ _ h1))
        · simp only [hs, if_false, if_neg, not_false_iff]
          exact List.mem_cons_of_mem _ (ih _ e he h1)

/-- C10: on a forced takeover, the session_taken_over notification every
evicted client receives names the incoming viewer by the incoming
client's raw API key (the newViewer payload field is populated from
client.apiKey with the literal Another device as fallback): whenever the
incoming client authenticated with key k, the evicted client's payload
carries k itself, not a device identifier. -/
theorem takeover_notification_contains_raw_api_key (st : WSState) (cid sid k e : String)
    (c : WebSocketClient)
    (hc : aget st.clients cid = some c) (hauth : c.authenticated = true)
    (hkey : c.apiKey = some k) (hsid : ¬ sid = "")
    (hmem : e ∈ sessionList st sid) (hlive : (aget st.clients e).isSome = true) :
    (e, ServerMsg.sessionTakenOver sid k) ∈ (handleSubscription st cid (some sid) true).2 := by
  have hne : (sessionList st sid).isEmpty = false := by
    cases hl : sessionList st sid
    · rw [hl] at hmem; simp at hmem
    · rfl
  have hout := evictLoop_emits c sid (sessionList st sid) st e hmem hlive
  rw [hkey] at hout
  unfold handleSubscription
  rw [hc]
  simp only [hauth, Bool.not_true, Bool.false_eq_true, if_false, hsid, hne,
    Bool.not_false, Bool.and_true, Bool.and_false, if_true, Option.getD_some]
  exact List.mem_append_left _ hout

/-- Witness for C10: client B, authenticated with key KB, force-takes
session S from client A; A receives session_taken_over carrying the raw
key KB. -/
theorem takeover_notification_contains_raw_api_key_witness :
    ("A", ServerMsg.sessionTakenOver "S" "KB")
      ∈ (handleSubscription takeoverScenario "B" (some "S") true).2 :=
  takeover_notification_contains_raw_api_key takeoverScenario "B" "S" "KB" "A"
    { sessionId := none, authenticated := true, apiKey := some "KB", deviceId := none }
    (by rfl) (by rfl) (by rfl) (by decide) (by decide) (by rfl)

theorem sessionList_addClient_self (st : WSState) (cid sid : String) :
    sessionList (addClientToSession st cid sid) sid = setAdd (sessionList st cid |> fun _ => sessionList st sid) cid := by
  unfold addClientToSession sessionList
  simp [aget_aset_self]

theorem sessionList_addClient_other (st : WSState) (cid sid sid' : String) (h : sid' ≠ sid) :
    sessionList (addClientToSession st cid sid) sid' = sessionList st sid' := by
  unfold addClientToSession sessionList
  simp [aget_aset_ne _ _ _ _ h]

theorem sessionList_install (st : WSState) (cid sid sid' : String) :
    sessionList (installSubscriber st cid sid) sid' =
      sessionList (addClientToSession st cid sid) sid' := by
  unfold installSubscriber
  dsimp only
  split <;> rfl

theorem evictLoop_sessionList_other (cl : WebSocketClient) (sid sid' : String) (h : sid' ≠ sid) :
    ∀ (L : List String) (st : WSState),
      sessionList (evictLoop cl sid st L).1 sid' = sessionList st sid' := by
  intro L
  induction L with
  | nil => intro st; rfl
  | cons eid rest ih =>
    intro st
    unfold evictLoop
    cases hg : aget st.clients eid with
    | none => exact ih st
    | some ec =>
      by_cases hs : ec.sessionId = some sid
      · simp only [hs, if_true, if_pos]
        rw [ih]
        exact removeClientFromSession_sessionList_other st eid sid sid' h
      · simp only [hs, if_false, if_neg, not_false_iff]
        rw [ih]
        exact removeClientFromSession_sessionList_other st eid sid sid' h

theorem evictLoop_sessionList_self (cl : WebSocketClient) (sid : String) :
    ∀ (L : List String) (st : WSState),
      (∀ x ∈ L, (aget st.clients x).isSome = true) →
      sessionList st sid ⊆ L →
      sessionList (evictLoop cl sid st L).1 sid = [] := by
  intro L
  induction L with
  | nil =>
    intro st _ hsub
    exact List.eq_nil_iff_forall_not_mem.mpr (fun x hx => (List.not_mem_nil x) (hsub hx))
  | cons eid rest ih =>
    intro st hlive hsub
    unfold evictLoop
    cases hg : aget st.clients eid with
    | none =>
      have := hlive eid (List.mem_cons_self eid rest)
      rw [hg] at this
      simp at this
    | some ec =>
      have hl1 : ∀ x ∈ rest,
          (aget (removeClientFromSession st eid sid).clients x).isSome = true := by
        intro x hx
        rw [removeClientFromSession_clients]
        exact hlive x (List.mem_cons_of_mem _ hx)
      have hsub1 : sessionList (removeClientFromSession st eid sid) sid ⊆ rest := by
        rw [removeClientFromSession_sessionList_self]
        intro x hx
        obtain ⟨hx1, hx2⟩ := List.mem_filter.mp hx
        have hxne : x ≠ eid := by simpa using hx2
        rcases List.mem_cons.mp (hsub hx1) with h | h
        · exact absurd h hxne
        · exact h
      by_cases hs : ec.sessionId = some sid
      · simp only [hs, if_true, if_pos]
        refine ih _ (fun x hx => aget_aset_isSome _ _ _ _ (hl1 x hx)) ?_
        exact hsub1
      · simp only [hs, if_false, if_neg, not_false_iff]
        exact ih _ hl1 hsub1

/-- C1 (amended): the subscribe operation, with or without force,
preserves the at-most-one-subscriber invariant on every session,
assuming every recorded subscriber is a live client (which force
eviction relies on to remove it); but accepting a new WebSocket
connection whose URL carries a sessionId query parameter together with
an apiKey the auth service accepts adds the client to that session's
subscriber set with no check against an existing subscriber, so two
clients can end up simultaneously attached (see the counterexample). -/
theorem handleSubscription_preserves_single_viewer (st : WSState) (cid : String)
    (psid : Option String) (force : Bool)
    (hone : atMostOneSubscriber st) (hcoh : coherentState st) :
    atMostOneSubscriber (handleSubscription st cid psid force).1 := by
  unfold handleSubscription
  cases hc : aget st.clients cid with
  | none => exact hone
  | some client =>
    by_cases hauth : client.authenticated = true
    · cases psid with
      | none => simp only [hauth, Bool.not_true, Bool.false_eq_true, if_false]; exact hone
      | some sid =>
        by_cases hsid : sid = ""
        · simp only [hauth, Bool.not_true, Bool.false_eq_true, if_false, hsid, if_true]
          exact hone
        · by_cases hex : (sessionList st sid).isEmpty = true
          · have hemp : sessionList st sid = [] := by
              cases hl : sessionList st sid
              · rfl
              · rw [hl] at hex; simp at hex
            simp only [hauth, Bool.not_true, Bool.false_eq_true, if_false, hsid, hex,
              Bool.not_true, Bool.false_and, Bool.and_false, if_neg, not_false_iff,
              Bool.false_eq_true]
            intro sid'
            rw [sessionList_install]
            by_cases h' : sid' = sid
            · subst h'
              rw [sessionList_addClient_self]
              simp [hemp, setAdd]
            · rw [sessionList_addClient_other _ _ _ _ h']
              exact hone sid'
          · by_cases hforce : force = true
            · have hexf : (sessionList st sid).isEmpty = false := by
                cases hb : (sessionList st sid).isEmpty
                · rfl
                · exact absurd hb hex
              simp only [hauth, Bool.not_true, Bool.false_eq_true, if_false, hsid, hexf,
                hforce, Bool.not_false, Bool.and_false, Bool.true_and, Bool.and_true,
                if_true, Bool.not_true]
              intro sid'
              rw [sessionList_install]
              by_cases h' : sid' = sid
              · subst h'
                rw [sessionList_addClient_self]
                have hev : sessionList (evictLoop client sid' st (sessionList st sid')).1 sid'
                    = [] := by
                  refine evictLoop_sessionList_self client sid' (sessionList st sid') st
                    (fun x hx => hcoh sid' x hx) (fun x hx => hx)
                rw [hev]
                simp [setAdd]
              · rw [sessionList_addClient_other _ _ _ _ h']
                rw [evictLoop_sessionList_other client sid sid' h']
                exact hone sid'
            · have hexf : (sessionList st sid).isEmpty = false := by
                cases hb : (sessionList st sid).isEmpty
                · rfl
                · exact absurd hb hex
              have hf : force = false := by
                cases force
                · rfl
                · exact absurd rfl hforce
              simp only [hauth, Bool.not_true, Bool.false_eq_true, if_false, hsid, hexf,
                hf, Bool.not_false, Bool.true_and, Bool.and_false, if_true]
              exact hone
    · have hf : client.authenticated = false := by
        cases hb : client.authenticated
        · rfl
        · exact absurd hb hauth
      simp only [hf, Bool.not_false, if_true]
      exact hone

/-- Witness for C1: in a state where A is the live subscriber of S, a
forced subscribe by the live authenticated client B leaves every session
with at most one subscriber. -/
theorem handleSubscription_preserves_single_viewer_witness :
    atMostOneSubscriber (handleSubscription takeoverScenario "B" (some "S") true).1 := by
  refine handleSubscription_preserves_single_viewer takeoverScenario "B" (some "S") true ?_ ?_
  · intro sid
    by_cases h : ("S" : String) = sid <;>
      simp [takeoverScenario, sessionList, aget, h]
  · intro sid cid hmem
    by_cases h : ("S" : String) = sid
    · subst h
      have : cid = "A" := by simpa [takeoverScenario, sessionList, aget] using hmem
      subst this
      rfl
    · simp [takeoverScenario, sessionList, aget, h] at hmem

/-- C1 (counterexample): starting from an empty server, client A
authenticates and subscribes to session S; then client B opens a
WebSocket connection whose URL carries sessionId S and a valid apiKey.
handleConnection adds B to the subscriber set of S without any
exclusivity check, leaving two clients simultaneously attached. -/
theorem connection_query_bypasses_exclusivity :
    sessionList twoViewerScenario "S" = ["A", "B"]
    ∧ ¬ (sessionList twoViewerScenario "S").length ≤ 1 :=
  ⟨by rfl, by decide⟩
